import Mathlib

/-!
Verification of snap-plugin-collector-netstat: connection-state aggregation and
namespace lookup.

A shallow embedding of `netstat/netstat.go`:

* `getStats` (lines 131-168): the per-state tally over the enumerated connections and
  the fixed 13-key snapshot built from it;
* `getMapValueByNamespace` (lines 109-129): the recursive lookup of a path in a
  (possibly nested) `map[string]interface{}`;
* `GetMetricTypes` (lines 65-81) and `CollectMetrics` (lines 84-106).

Modelling conventions.

* A Go `map[string]T` is an association list with unique-first lookup (`mapLookup`) and
  in-place update or append (`mapStore`).
* A Go `error` is its message (`String`); `fmt.Errorf("... %v", err)` is string
  concatenation with `err.Error()`.
* `net.Connections("all")` is the only read of the outside world; its result is passed
  in explicitly as `Except String (List ConnectionStat)`.
* Counters are Go `int`.  A counter never exceeds the length of the connection slice,
  and the length of a Go slice is itself an `int`, so the increments cannot wrap; the
  counters are modelled as unbounded `Int`.
* `Timestamp_: time.Now()` is a wall-clock reading and is left out of `MetricType`.
* A run-time panic (slice bounds out of range) is the outer `none` of `CollectMetrics`.
-/

namespace Netstat

/-! ## Data model -/

/-- Socket type `syscall.SOCK_STREAM` (Linux value). -/
def SOCK_STREAM : Nat := 1

/-- Socket type `syscall.SOCK_DGRAM` (Linux value), tested at line 140. -/
def SOCK_DGRAM : Nat := 2

/-- Socket type `syscall.SOCK_SEQPACKET` (Linux value). -/
def SOCK_SEQPACKET : Nat := 5

/-- Address family `syscall.AF_UNIX`. -/
def AF_UNIX : Nat := 1

/-- Address family `syscall.AF_INET`. -/
def AF_INET : Nat := 2

/-- Address family `syscall.AF_INET6` (Linux value). -/
def AF_INET6 : Nat := 10

/-- The fields of gopsutil's `net.ConnectionStat` that identify the kind of a connection:
`Family`, `Type` (both `uint32`) and `Status`.  `getStats` reads `Type` and `Status` only;
the remaining fields (`Fd`, `Laddr`, `Raddr`, `Uids`, `Pid`) are never read. -/
structure ConnectionStat where
  Family : Nat
  Type_ : Nat
  Status : String
  deriving DecidableEq, Repr

/-- A Go `interface{}` value as it occurs in a `map[string]interface{}`: the nil interface,
an `int`, a nested `map[string]interface{}`, or some other dynamic value (represented by a
string). -/
inductive Value where
  | nil : Value
  | int (n : Int) : Value
  | str (s : String) : Value
  | map (m : List (String × Value)) : Value

/-- Go `map[string]interface{}`. -/
abbrev Fields := List (String × Value)

/-- Go `map[string]int`. -/
abbrev Counts := List (String × Int)

/-- The two-result map read `v, ok := m[k]`: `some v` when `k` is present. -/
def mapLookup {β : Type} : List (String × β) → String → Option β
  | [], _ => none
  | (k', v) :: rest, k => if k' = k then some v else mapLookup rest k

/-- The map write `m[k] = v`: overwrite the entry of `k`, or add one. -/
def mapStore {β : Type} : List (String × β) → String → β → List (String × β)
  | [], k, v => [(k, v)]
  | (k', v') :: rest, k, v =>
    if k' = k then (k, v) :: rest else (k', v') :: mapStore rest k v

/-- The one-result map read `counts[k]` on a `map[string]int`: the zero value when `k`
is absent. -/
def countOf (counts : Counts) (k : String) : Int :=
  (mapLookup counts k).getD 0

/-- `plugin.MetricType` restricted to `Namespace_` and `Data_`. -/
structure MetricType where
  Namespace_ : List String
  Data_ : Value

/-! ## getStats (lines 131-168) -/

/-- Body of the loop at lines 139-149. -/
def countConn (counts : Counts) (conn : ConnectionStat) : Counts :=
  if conn.Type_ = SOCK_DGRAM then
    mapStore counts "UDP" (countOf counts "UDP" + 1)
  else
    let c := countOf counts conn.Status
    let counts1 :=
      if (mapLookup counts conn.Status).isSome then counts
      else mapStore counts conn.Status 0
    mapStore counts1 conn.Status (c + 1)

/-- Lines 137-149: `counts` starts as `{"UDP": 0}` and the loop runs over `conns`. -/
def countConns (conns : List ConnectionStat) : Counts :=
  conns.foldl countConn [("UDP", 0)]

/-- The map literal at lines 151-165. -/
def buildFields (counts : Counts) : Fields :=
  [ ("tcp_established", Value.int (countOf counts "ESTABLISHED")),
    ("tcp_syn_sent", Value.int (countOf counts "SYN_SENT")),
    ("tcp_syn_recv", Value.int (countOf counts "SYN_RECV")),
    ("tcp_fin_wait1", Value.int (countOf counts "FIN_WAIT1")),
    ("tcp_fin_wait2", Value.int (countOf counts "FIN_WAIT2")),
    ("tcp_time_wait", Value.int (countOf counts "TIME_WAIT")),
    ("tcp_close", Value.int (countOf counts "CLOSE")),
    ("tcp_close_wait", Value.int (countOf counts "CLOSE_WAIT")),
    ("tcp_last_ack", Value.int (countOf counts "LAST_ACK")),
    ("tcp_listen", Value.int (countOf counts "LISTEN")),
    ("tcp_closing", Value.int (countOf counts "CLOSING")),
    ("tcp_none", Value.int (countOf counts "NONE")),
    ("udp_socket", Value.int (countOf counts "UDP")) ]

/-- The snapshot `getStats` builds from a successfully enumerated connection list
(lines 137-165). -/
def snapshot (conns : List ConnectionStat) : Fields :=
  buildFields (countConns conns)

/-- `getStats`, with the result of `net.Connections("all")` passed in. -/
def getStats (enumerated : Except String (List ConnectionStat)) : Except String Fields :=
  match enumerated with
  | .error err => .error err
  | .ok conns => .ok (snapshot conns)

/-! ## getMapValueByNamespace (lines 109-129) -/

/-- `getMapValueByNamespace`: the pair `(val, err)`, `err = none` standing for a nil
error.  `val` is the nil interface unless it was assigned. -/
def getMapValueByNamespace : Fields → List String → Value × Option String
  | _, [] => (Value.nil, some "Namespace length equal to zero")
  | m, [current] =>
    match mapLookup m current with
    | some val => (val, none)
    | none => (Value.nil, some ("Key does not exist in map \x7bkey " ++ current ++ "\x7d"))
  | m, current :: next :: rest =>
    match mapLookup m current with
    | some (Value.map v) => getMapValueByNamespace v (next :: rest)
    | _ => (Value.nil, none)

/-! ## GetMetricTypes and CollectMetrics (lines 65-106) -/

/-- `GetMetricTypes`.  `rangeOrder` is the order in which `for name := range fields`
visits the map, which Go leaves unspecified. -/
def GetMetricTypes (enumerated : Except String (List ConnectionStat))
    (rangeOrder : Fields → Fields) : List MetricType × Option String :=
  match getStats enumerated with
  | .error err => ([], some ("Error collecting metrics: " ++ err))
  | .ok fields =>
    ((rangeOrder fields).map
      (fun entry => { Namespace_ := ["staples", "procfs", "netstat", entry.1],
                      Data_ := Value.nil }), none)

/-- The slice expression `ns[3:]`: defined when `3 ≤ len(ns)`, a run-time panic
otherwise. -/
def sliceFrom3 (ns : List String) : Option (List String) :=
  if 3 ≤ ns.length then some (ns.drop 3) else none

/-- The loop at lines 90-104 of `CollectMetrics`, with the metrics appended so far.  The
outer `none` is a panic. -/
def collectLoop (fields : Fields) :
    List MetricType → List MetricType → Option (List MetricType × Option String)
  | [], metrics => some (metrics, none)
  | metricType :: rest, metrics =>
    match sliceFrom3 metricType.Namespace_ with
    | none => none
    | some path =>
      match getMapValueByNamespace fields path with
      | (_, some err) => some ([], some ("Error collecting metrics: " ++ err))
      | (val, none) =>
        collectLoop fields rest
          (metrics ++ [{ Namespace_ := metricType.Namespace_, Data_ := val }])

/-- `CollectMetrics`, with the result of `net.Connections("all")` passed in. -/
def CollectMetrics (enumerated : Except String (List ConnectionStat))
    (metricTypes : List MetricType) : Option (List MetricType × Option String) :=
  match getStats enumerated with
  | .error err => some ([], some ("Error collecting metrics: " ++ err))
  | .ok fields => collectLoop fields metricTypes []


/-! ## Vocabulary of the specification -/

/-- The 12 connection states the snapshot has a key for. -/
def knownStates : List String :=
  ["ESTABLISHED", "SYN_SENT", "SYN_RECV", "FIN_WAIT1", "FIN_WAIT2", "TIME_WAIT",
   "CLOSE", "CLOSE_WAIT", "LAST_ACK", "LISTEN", "CLOSING", "NONE"]

/-- The 12 per-state keys of the snapshot. -/
def tcpKeys : List String :=
  ["tcp_established", "tcp_syn_sent", "tcp_syn_recv", "tcp_fin_wait1", "tcp_fin_wait2",
   "tcp_time_wait", "tcp_close", "tcp_close_wait", "tcp_last_ack", "tcp_listen",
   "tcp_closing", "tcp_none"]

/-- The fixed metric key catalog: the 12 per-state keys and `udp_socket`. -/
def catalog : List String := tcpKeys ++ ["udp_socket"]

/-- Character-wise lower-casing of a string. -/
def lowercase (s : String) : String := String.mk (s.data.map Char.toLower)

/-- Key under which the state `S` is reported. -/
def tcpKey (S : String) : String := "tcp_" ++ lowercase S

/-- A connection is UDP when its socket type is `SOCK_DGRAM`. -/
def isUDP (c : ConnectionStat) : Bool := decide (c.Type_ = SOCK_DGRAM)

/-- A connection is TCP when it is a stream socket of an internet address family. -/
def isTCP (c : ConnectionStat) : Bool :=
  decide (c.Type_ = SOCK_STREAM) && (decide (c.Family = AF_INET) || decide (c.Family = AF_INET6))

/-- The state of the connection is one of the 12 known states. -/
def hasKnownState (c : ConnectionStat) : Bool := decide (c.Status ∈ knownStates)

/-- The integer stored under `k`, zero when `k` is absent or holds no integer. -/
def intAt (fields : Fields) (k : String) : Int :=
  match mapLookup fields k with
  | some (Value.int n) => n
  | _ => 0

/-- Sum of the twelve `tcp_*` values of a snapshot. -/
def tcpSum (fields : Fields) : Int := (tcpKeys.map (intAt fields)).sum

/-- The loop body increments the counter `k` for the connection `c`. -/
def bumps (c : ConnectionStat) (k : String) : Bool :=
  if c.Type_ = SOCK_DGRAM then decide (k = "UDP") else decide (c.Status = k)

/-! ## Concrete inputs and derived notions used in the statements -/

/-- Number of non-datagram connections of `conns` whose state is exactly `S`. -/
def stateCount (conns : List ConnectionStat) (S : String) : Nat :=
  conns.countP (fun c => decide (c.Type_ ≠ SOCK_DGRAM ∧ c.Status = S))

/-- The scenario of the specification: 3 ESTABLISHED, 1 LISTEN, 2 UDP and one connection
in the unknown state "BOGUS". -/
def scenario : List ConnectionStat :=
  [ ⟨AF_INET, SOCK_STREAM, "ESTABLISHED"⟩, ⟨AF_INET, SOCK_DGRAM, "NONE"⟩,
    ⟨AF_INET, SOCK_STREAM, "LISTEN"⟩, ⟨AF_INET6, SOCK_STREAM, "ESTABLISHED"⟩,
    ⟨AF_INET, SOCK_STREAM, "BOGUS"⟩, ⟨AF_INET6, SOCK_DGRAM, ""⟩,
    ⟨AF_INET, SOCK_STREAM, "ESTABLISHED"⟩ ]

/-- A stream socket of the internet family whose state string is "UDP". -/
def streamInStateUDP : ConnectionStat := ⟨AF_INET, SOCK_STREAM, "UDP"⟩

/-- A sequenced-packet socket of the Unix family in the state "NONE", as the enumeration
of all connection kinds reports Unix sockets: neither TCP nor UDP. -/
def unixSeqpacket : ConnectionStat := ⟨AF_UNIX, SOCK_SEQPACKET, "NONE"⟩

/-- The metric `CollectMetrics` appends for a request: the requested namespace unchanged
and the value resolved for the namespace without its first three segments. -/
def collected (fields : Fields) (metricType : MetricType) : MetricType :=
  { Namespace_ := metricType.Namespace_,
    Data_ := (getMapValueByNamespace fields (metricType.Namespace_.drop 3)).1 }


/-- Two requests under the routing segments `staples/procfs/netstat`. -/
def listenAndUdp : List MetricType :=
  [ { Namespace_ := ["staples", "procfs", "netstat", "tcp_listen"], Data_ := Value.nil },
    { Namespace_ := ["staples", "procfs", "netstat", "udp_socket"], Data_ := Value.nil } ]

/-- The metric `GetMetricTypes` appends for the key `name` (lines 72-78): the namespace
`staples/procfs/netstat/name` and nil data. -/
def listed (name : String) : MetricType :=
  { Namespace_ := ["staples", "procfs", "netstat", name], Data_ := Value.nil }

/-- The path names the present leaf `leaf` of `m`: every segment but the last is a key
holding a nested mapping, and the last segment is a key of the innermost mapping, which
holds `leaf`. -/
def namesLeaf : Fields → List String → Value → Prop
  | _, [], _ => False
  | m, [k], leaf => mapLookup m k = some leaf
  | m, k :: next :: rest, leaf =>
    ∃ inner, mapLookup m k = some (Value.map inner) ∧ namesLeaf inner (next :: rest) leaf

/-- A mapping nested three deep: `net.tcp.listen = 4`, `net.udp = 7`, `up = 1`. -/
def nestedFields : Fields :=
  [ ("net", Value.map [ ("tcp", Value.map [("listen", Value.int 4)]),
                        ("udp", Value.int 7) ]),
    ("up", Value.int 1) ]

/-- Two requests: an absent key, then the bare routing segments. -/
def bogusThenBare : List MetricType :=
  [ { Namespace_ := ["staples", "procfs", "netstat", "tcp_bogus"], Data_ := Value.nil },
    { Namespace_ := ["staples", "procfs", "netstat"], Data_ := Value.nil } ]

/-! ## Lemmas on the maps -/

theorem mapLookup_mapStore {β : Type} (m : List (String × β)) (k k' : String) (v : β) :
    mapLookup (mapStore m k v) k' = if k = k' then some v else mapLookup m k' := by
  induction m with
  | nil => simp [mapStore, mapLookup]
  | cons hd tl ih =>
    obtain ⟨a, b⟩ := hd
    by_cases hak : a = k
    · subst hak
      by_cases hak' : a = k' <;> simp [mapStore, mapLookup, hak']
    · by_cases hak' : a = k'
      · subst hak'
        simp [mapStore, mapLookup, hak, Ne.symm hak]
      · simp [mapStore, mapLookup, hak, hak', ih]

theorem countOf_mapStore (m : Counts) (k k' : String) (v : Int) :
    countOf (mapStore m k v) k' = if k = k' then v else countOf m k' := by
  unfold countOf
  rw [mapLookup_mapStore]
  split <;> rfl

theorem countOf_countConn (counts : Counts) (c : ConnectionStat) (k : String) :
    countOf (countConn counts c) k = countOf counts k + (if bumps c k then 1 else 0) := by
  unfold countConn bumps
  by_cases hT : c.Type_ = SOCK_DGRAM
  · simp only [hT, if_true, countOf_mapStore]
    by_cases hk : "UDP" = k
    · subst hk; simp
    · simp [hk, Ne.symm hk]
  · simp only [hT, if_false, countOf_mapStore]
    by_cases hk : c.Status = k
    · simp [hk]
    · simp only [hk, if_false, decide_False]
      split
      · simp
      · simp [countOf_mapStore, hk]

theorem countOf_foldl (conns : List ConnectionStat) (counts : Counts) (k : String) :
    countOf (conns.foldl countConn counts) k
      = countOf counts k + ((conns.countP (fun c => bumps c k) : Nat) : Int) := by
  induction conns generalizing counts with
  | nil => simp
  | cons c cs ih =>
    rw [List.foldl_cons, ih, countOf_countConn, List.countP_cons]
    split <;> simp_all
    omega

theorem countOf_countConns (conns : List ConnectionStat) (k : String) :
    countOf (countConns conns) k
      = ((conns.countP (fun c => bumps c k) : Nat) : Int) := by
  unfold countConns
  rw [countOf_foldl]
  have h0 : countOf [("UDP", 0)] k = 0 := by
    unfold countOf mapLookup
    split <;> rfl
  rw [h0, zero_add]


theorem bumps_of_ne_udp (c : ConnectionStat) (k : String) (hk : k ≠ "UDP") :
    bumps c k = decide (c.Type_ ≠ SOCK_DGRAM ∧ c.Status = k) := by
  unfold bumps
  by_cases hT : c.Type_ = SOCK_DGRAM <;> simp [hT, hk]

theorem bumps_udp (c : ConnectionStat) :
    bumps c "UDP" = (isUDP c || decide (c.Type_ ≠ SOCK_DGRAM ∧ c.Status = "UDP")) := by
  unfold bumps isUDP
  by_cases hT : c.Type_ = SOCK_DGRAM <;> simp [hT]

theorem countOf_countConns_state (conns : List ConnectionStat) (S : String) (hS : S ≠ "UDP") :
    countOf (countConns conns) S = (stateCount conns S : Int) := by
  rw [countOf_countConns]
  unfold stateCount
  congr 2
  funext c
  exact bumps_of_ne_udp c S hS

theorem mem_knownStates_ne_udp (S : String) (hS : S ∈ knownStates) : S ≠ "UDP" := by
  intro h
  subst h
  revert hS
  decide

theorem lookup_snapshot_tcpKey (conns : List ConnectionStat) (S : String) (hS : S ∈ knownStates) :
    mapLookup (snapshot conns) (tcpKey S) = some (Value.int (countOf (countConns conns) S)) := by
  simp only [knownStates, List.mem_cons, List.mem_singleton, List.not_mem_nil, or_false] at hS
  rcases hS with h | h | h | h | h | h | h | h | h | h | h | h <;> subst h <;> rfl

/-! ## The snapshot of getStats -/

/-- C1: for every connection list and each of the 12 known states `S`, the snapshot built
by `getStats` stores under the key `"tcp_" ++ lowercase S` the number of connections of
the list that are not UDP (socket type different from `SOCK_DGRAM`) and whose state is
exactly `S`. -/
theorem getStats_tcp_state_count (conns : List ConnectionStat) (S : String)
    (hS : S ∈ knownStates) :
    ∃ fields, getStats (.ok conns) = .ok fields ∧
      mapLookup fields ("tcp_" ++ lowercase S)
        = some (Value.int
            ((conns.countP (fun c => decide (c.Type_ ≠ SOCK_DGRAM ∧ c.Status = S)) : Nat) : Int)) := by
  refine ⟨snapshot conns, rfl, ?_⟩
  have h := lookup_snapshot_tcpKey conns S hS
  rw [countOf_countConns_state conns S (mem_knownStates_ne_udp S hS)] at h
  exact h

/-- C1 at the scenario of the specification (3 ESTABLISHED, 1 LISTEN, 2 UDP, 1 "BOGUS"):
`tcp_established` is 3, and the whole snapshot is `tcp_established = 3`, `tcp_listen = 1`,
`udp_socket = 2` and 0 under every other key. -/
theorem getStats_tcp_state_count_witness :
    "ESTABLISHED" ∈ knownStates ∧
    (∃ fields, getStats (.ok scenario) = .ok fields ∧
      mapLookup fields ("tcp_" ++ lowercase "ESTABLISHED")
        = some (Value.int
            ((scenario.countP
              (fun c => decide (c.Type_ ≠ SOCK_DGRAM ∧ c.Status = "ESTABLISHED")) : Nat) : Int))) ∧
    scenario.countP (fun c => decide (c.Type_ ≠ SOCK_DGRAM ∧ c.Status = "ESTABLISHED")) = 3 ∧
    getStats (.ok scenario) = .ok
      [ ("tcp_established", Value.int 3), ("tcp_syn_sent", Value.int 0),
        ("tcp_syn_recv", Value.int 0), ("tcp_fin_wait1", Value.int 0),
        ("tcp_fin_wait2", Value.int 0), ("tcp_time_wait", Value.int 0),
        ("tcp_close", Value.int 0), ("tcp_close_wait", Value.int 0),
        ("tcp_last_ack", Value.int 0), ("tcp_listen", Value.int 1),
        ("tcp_closing", Value.int 0), ("tcp_none", Value.int 0),
        ("udp_socket", Value.int 2) ] :=
  ⟨by decide, getStats_tcp_state_count scenario "ESTABLISHED" (by decide), by decide, rfl⟩

theorem snapshot_keys (conns : List ConnectionStat) :
    (snapshot conns).map Prod.fst = catalog := rfl

theorem snapshot_values (conns : List ConnectionStat) (k : String) (hk : k ∈ catalog) :
    ∃ n : Nat, mapLookup (snapshot conns) k = some (Value.int (n : Int)) := by
  simp only [catalog, tcpKeys, List.cons_append, List.nil_append, List.mem_cons,
    List.mem_singleton, List.not_mem_nil, or_false] at hk
  have hsrc : ∃ S, mapLookup (snapshot conns) k
      = some (Value.int (countOf (countConns conns) S)) := by
    rcases hk with h | h | h | h | h | h | h | h | h | h | h | h | h <;> subst h <;>
      exact ⟨_, rfl⟩
  obtain ⟨S, hS⟩ := hsrc
  rw [countOf_countConns] at hS
  exact ⟨_, hS⟩

/-- C2: for every connection list on which enumeration succeeds, the snapshot built by
`getStats` has exactly the 13 keys of the fixed catalog, each mapped to a non-negative
integer; for the empty list all 13 values are 0. -/
theorem getStats_fixed_keys :
    (∀ conns : List ConnectionStat, ∃ fields, getStats (.ok conns) = .ok fields ∧
      fields.map Prod.fst = catalog ∧
      (∀ k, (mapLookup fields k).isSome = true ↔ k ∈ catalog) ∧
      (∀ k ∈ catalog, ∃ n : Int, 0 ≤ n ∧ mapLookup fields k = some (Value.int n))) ∧
    catalog.Nodup ∧ catalog.length = 13 ∧
    (∃ fields, getStats (.ok []) = .ok fields ∧
      ∀ k ∈ catalog, mapLookup fields k = some (Value.int 0)) := by
  refine ⟨fun conns => ⟨snapshot conns, rfl, rfl, ?_, ?_⟩, by decide, by decide,
    ⟨snapshot [], rfl, ?_⟩⟩
  · intro k
    constructor
    · intro h
      by_contra hk
      have hne : mapLookup (snapshot conns) k = none := by
        simp only [catalog, tcpKeys, List.cons_append, List.nil_append, List.mem_cons,
          List.mem_singleton, List.not_mem_nil, or_false, not_or] at hk
        obtain ⟨h1, h2, h3, h4, h5, h6, h7, h8, h9, h10, h11, h12, h13⟩ := hk
        simp [snapshot, buildFields, mapLookup, Ne.symm h1, Ne.symm h2, Ne.symm h3,
          Ne.symm h4, Ne.symm h5, Ne.symm h6, Ne.symm h7, Ne.symm h8, Ne.symm h9,
          Ne.symm h10, Ne.symm h11, Ne.symm h12, Ne.symm h13]
      rw [hne] at h
      exact absurd h (by simp)
    · intro hk
      obtain ⟨n, hn⟩ := snapshot_values conns k hk
      rw [hn]
      rfl
  · intro k hk
    obtain ⟨n, hn⟩ := snapshot_values conns k hk
    exact ⟨n, Int.natCast_nonneg n, hn⟩
  · intro k hk
    simp only [catalog, tcpKeys, List.cons_append, List.nil_append, List.mem_cons,
      List.mem_singleton, List.not_mem_nil, or_false] at hk
    rcases hk with h | h | h | h | h | h | h | h | h | h | h | h | h <;> subst h <;> rfl


theorem countP_or_of_disjoint {α : Type} (p q : α → Bool) (l : List α)
    (h : ∀ a, ¬ (p a = true ∧ q a = true)) :
    l.countP (fun a => p a || q a) = l.countP p + l.countP q := by
  induction l with
  | nil => rfl
  | cons a as ih =>
    simp only [List.countP_cons, ih]
    have ha := h a
    cases hp : p a <;> cases hq : q a <;> simp_all <;> omega

theorem countOf_countConns_udp (conns : List ConnectionStat) :
    countOf (countConns conns) "UDP"
      = ((conns.countP isUDP + stateCount conns "UDP" : Nat) : Int) := by
  rw [countOf_countConns]
  unfold stateCount
  rw [← countP_or_of_disjoint]
  · congr 2
    funext c
    exact bumps_udp c
  · intro c hc
    simp [isUDP] at hc
    exact hc.2.1 hc.1

/-- C3 (the code at the failing input): `udp_socket` is the number of `SOCK_DGRAM`
connections plus the number of non-datagram connections whose state string is "UDP",
because both are tallied under the one counter `counts["UDP"]`; on the list holding the
single stream connection in state "UDP", which has no UDP connection, `udp_socket` is 1. -/
theorem getStats_udp_socket_collision :
    (∀ conns : List ConnectionStat, ∃ fields, getStats (.ok conns) = .ok fields ∧
      mapLookup fields "udp_socket"
        = some (Value.int ((conns.countP isUDP
            + conns.countP (fun c => decide (c.Type_ ≠ SOCK_DGRAM ∧ c.Status = "UDP")) : Nat) : Int))) ∧
    [streamInStateUDP].countP isUDP = 0 ∧
    (∃ fields, getStats (.ok [streamInStateUDP]) = .ok fields ∧
      mapLookup fields "udp_socket" = some (Value.int 1)) := by
  refine ⟨fun conns => ⟨snapshot conns, rfl, ?_⟩, by decide, ⟨_, rfl, rfl⟩⟩
  show some (Value.int (countOf (countConns conns) "UDP")) = _
  rw [countOf_countConns_udp]
  rfl


/-! ## Sum of the per-state values and connections that are not counted -/

theorem buildFields_congr (a b : Counts)
    (h : ∀ k ∈ "UDP" :: knownStates, countOf a k = countOf b k) :
    buildFields a = buildFields b := by
  simp only [buildFields, h "UDP" (by decide), h "ESTABLISHED" (by decide),
    h "SYN_SENT" (by decide), h "SYN_RECV" (by decide), h "FIN_WAIT1" (by decide),
    h "FIN_WAIT2" (by decide), h "TIME_WAIT" (by decide), h "CLOSE" (by decide),
    h "CLOSE_WAIT" (by decide), h "LAST_ACK" (by decide), h "LISTEN" (by decide),
    h "CLOSING" (by decide), h "NONE" (by decide)]

theorem countOf_countConns_insert (pre post : List ConnectionStat) (c : ConnectionStat)
    (k : String) :
    countOf (countConns (pre ++ c :: post)) k
      = countOf (countConns (pre ++ post)) k + (if bumps c k then 1 else 0) := by
  rw [countOf_countConns, countOf_countConns]
  simp only [List.countP_append, List.countP_cons]
  split
  · simp only [if_true, Nat.cast_add, Nat.cast_one]
    omega
  · simp

theorem snapshot_insert_uncounted (pre post : List ConnectionStat) (c : ConnectionStat)
    (hT : c.Type_ ≠ SOCK_DGRAM) (hS : c.Status ∉ knownStates) (hU : c.Status ≠ "UDP") :
    snapshot (pre ++ c :: post) = snapshot (pre ++ post) := by
  unfold snapshot
  apply buildFields_congr
  intro k hk
  rw [countOf_countConns_insert]
  have hb : bumps c k = false := by
    unfold bumps
    simp only [hT, if_false, decide_eq_false_iff_not]
    intro hck
    rw [hck] at hS hU
    rcases List.mem_cons.mp hk with h | h
    · exact hU h
    · exact hS h
  simp [hb]

theorem sum_stateCount (conns : List ConnectionStat) (l : List String) (hl : l.Nodup) :
    (l.map (stateCount conns)).sum
      = conns.countP (fun c => decide (c.Type_ ≠ SOCK_DGRAM ∧ c.Status ∈ l)) := by
  induction l with
  | nil => simp
  | cons S l ih =>
    rw [List.nodup_cons] at hl
    rw [List.map_cons, List.sum_cons, ih hl.2]
    unfold stateCount
    rw [← countP_or_of_disjoint]
    · congr 1
      funext c
      by_cases hT : c.Type_ = SOCK_DGRAM <;> simp [hT]
    · intro c hc
      simp only [decide_eq_true_eq] at hc
      obtain ⟨⟨_, h1⟩, ⟨_, h2⟩⟩ := hc
      rw [h1] at h2
      exact hl.1 h2

theorem tcpSum_snapshot (conns : List ConnectionStat) :
    tcpSum (snapshot conns) = ((knownStates.map (stateCount conns)).sum : Nat) := by
  have h : ∀ S ∈ knownStates, intAt (snapshot conns) (tcpKey S) = (stateCount conns S : Int) := by
    intro S hS
    unfold intAt
    rw [lookup_snapshot_tcpKey conns S hS, countOf_countConns_state conns S
      (mem_knownStates_ne_udp S hS)]
  have hk : tcpKeys = knownStates.map tcpKey := by decide
  unfold tcpSum
  rw [hk, List.map_map]
  simp only [knownStates, List.map_cons, List.map_nil, Function.comp, List.sum_cons,
    List.sum_nil, Nat.cast_add, Nat.cast_zero]
  rw [h _ (by decide), h _ (by decide), h _ (by decide), h _ (by decide), h _ (by decide),
    h _ (by decide), h _ (by decide), h _ (by decide), h _ (by decide), h _ (by decide),
    h _ (by decide), h _ (by decide)]

/-- C4 (counterexample): on the list holding one Unix sequenced-packet socket in state
"NONE" the twelve `tcp_*` values sum to 1, although the list has no TCP connection. -/
theorem getStats_tcp_sum_counts_non_tcp :
    [unixSeqpacket].countP (fun c => isTCP c && hasKnownState c) = 0 ∧
    ∃ fields, getStats (.ok [unixSeqpacket]) = .ok fields ∧ tcpSum fields = 1 :=
  ⟨by decide, _, rfl, by decide⟩

/-- C4 (amended): for every connection list the twelve `tcp_*` values of the snapshot sum
to the number of connections whose socket type is not `SOCK_DGRAM` and whose state is one
of the 12 known states; and a non-datagram connection whose state is neither a known state
nor the string "UDP" adds to none of the 13 keys, wherever it stands in the list. -/
theorem getStats_tcp_sum (conns : List ConnectionStat) :
    (∃ fields, getStats (.ok conns) = .ok fields ∧
      tcpSum fields = ((conns.countP (fun c => !isUDP c && hasKnownState c) : Nat) : Int)) ∧
    (∀ (pre post : List ConnectionStat) (c : ConnectionStat),
      c.Type_ ≠ SOCK_DGRAM → c.Status ∉ knownStates → c.Status ≠ "UDP" →
      getStats (.ok (pre ++ c :: post)) = getStats (.ok (pre ++ post))) := by
  constructor
  · refine ⟨snapshot conns, rfl, ?_⟩
    rw [tcpSum_snapshot, sum_stateCount conns knownStates (by decide)]
    congr 2
    funext c
    simp [isUDP, hasKnownState]
  · intro pre post c hT hS hU
    show Except.ok (snapshot _) = Except.ok (snapshot _)
    rw [snapshot_insert_uncounted pre post c hT hS hU]

/-- C4 (amended) applied to the scenario and to a stream connection in the unknown state
"BOGUS". -/
theorem getStats_tcp_sum_witness :
    (⟨AF_INET, SOCK_STREAM, "BOGUS"⟩ : ConnectionStat).Type_ ≠ SOCK_DGRAM ∧
    "BOGUS" ∉ knownStates ∧ "BOGUS" ≠ "UDP" ∧
    getStats (.ok ([] ++ ⟨AF_INET, SOCK_STREAM, "BOGUS"⟩ :: scenario))
      = getStats (.ok ([] ++ scenario)) :=
  ⟨by decide, by decide, by decide,
    (getStats_tcp_sum scenario).2 [] scenario ⟨AF_INET, SOCK_STREAM, "BOGUS"⟩
      (by decide) (by decide) (by decide)⟩

/-- C5 (counterexample): adding one Unix sequenced-packet socket in state "NONE", which is
neither TCP nor UDP, to the empty list raises `tcp_none` from 0 to 1. -/
theorem getStats_counts_non_tcp_socket :
    isTCP unixSeqpacket = false ∧ isUDP unixSeqpacket = false ∧
    (∃ fields, getStats (.ok []) = .ok fields ∧
      mapLookup fields "tcp_none" = some (Value.int 0)) ∧
    (∃ fields, getStats (.ok [unixSeqpacket]) = .ok fields ∧
      mapLookup fields "tcp_none" = some (Value.int 1)) :=
  ⟨by decide, by decide, ⟨_, rfl, rfl⟩, ⟨_, rfl, rfl⟩⟩

/-- C5 (amended): the aggregation tells datagram sockets from all others and nothing more.
Adding, anywhere in the list, a connection whose socket type is not `SOCK_DGRAM` (TCP or
not) and whose state is not the string "UDP" raises the value of `tcp_<state>` by one when
its state is one of the 12 known states and leaves every other value, `udp_socket`
included, unchanged; when its state is not a known state all 13 values are unchanged. -/
theorem getStats_non_datagram_by_state (pre post : List ConnectionStat) (c : ConnectionStat)
    (hT : c.Type_ ≠ SOCK_DGRAM) (hU : c.Status ≠ "UDP") :
    ∃ fields fields1, getStats (.ok (pre ++ post)) = .ok fields ∧
      getStats (.ok (pre ++ c :: post)) = .ok fields1 ∧
      (∀ S ∈ knownStates, intAt fields1 ("tcp_" ++ lowercase S)
        = intAt fields ("tcp_" ++ lowercase S) + (if c.Status = S then 1 else 0)) ∧
      intAt fields1 "udp_socket" = intAt fields "udp_socket" ∧
      (c.Status ∉ knownStates → fields1 = fields) := by
  refine ⟨snapshot (pre ++ post), snapshot (pre ++ c :: post), rfl, rfl, ?_, ?_, ?_⟩
  · intro S hS
    have hl := lookup_snapshot_tcpKey (pre ++ post) S hS
    have hl1 := lookup_snapshot_tcpKey (pre ++ c :: post) S hS
    unfold tcpKey at hl hl1
    unfold intAt
    rw [hl, hl1]
    simp only
    rw [countOf_countConns_insert, bumps_of_ne_udp c S (mem_knownStates_ne_udp S hS)]
    simp [hT]
  · have hb : bumps c "UDP" = false := by
      unfold bumps
      simp [hT, hU]
    have h : countOf (countConns (pre ++ c :: post)) "UDP"
        = countOf (countConns (pre ++ post)) "UDP" := by
      rw [countOf_countConns_insert, hb]
      simp
    show countOf (countConns (pre ++ c :: post)) "UDP" = countOf (countConns (pre ++ post)) "UDP"
    exact h
  · intro hS
    exact snapshot_insert_uncounted pre post c hT hS hU

/-- C5 (amended) applied to the Unix sequenced-packet socket in state "NONE" added to the
scenario: `tcp_none` goes from 0 to 1. -/
theorem getStats_non_datagram_by_state_witness :
    unixSeqpacket.Type_ ≠ SOCK_DGRAM ∧ unixSeqpacket.Status ≠ "UDP" ∧
    ∃ fields fields1, getStats (.ok (scenario ++ [])) = .ok fields ∧
      getStats (.ok (scenario ++ unixSeqpacket :: [])) = .ok fields1 ∧
      (∀ S ∈ knownStates, intAt fields1 ("tcp_" ++ lowercase S)
        = intAt fields ("tcp_" ++ lowercase S) + (if unixSeqpacket.Status = S then 1 else 0)) ∧
      intAt fields1 "udp_socket" = intAt fields "udp_socket" ∧
      (unixSeqpacket.Status ∉ knownStates → fields1 = fields) :=
  ⟨by decide, by decide,
    getStats_non_datagram_by_state scenario [] unixSeqpacket (by decide) (by decide)⟩


/-! ## Resolution of a path: getMapValueByNamespace -/

/-- C6: for every mapping `m` and key `k`, the one-segment path `[k]` resolves to exactly
`m[k]` with no error when `k` is present in `m`, and to no value with the error
"Key does not exist in map" (naming `k`) when `k` is absent. -/
theorem getMapValueByNamespace_single (m : Fields) (k : String) :
    (∀ v, mapLookup m k = some v → getMapValueByNamespace m [k] = (v, none)) ∧
    (mapLookup m k = none →
      getMapValueByNamespace m [k]
        = (Value.nil, some ("Key does not exist in map \x7bkey " ++ k ++ "\x7d"))) := by
  constructor
  · intro v hv
    simp only [getMapValueByNamespace, hv]
  · intro hk
    simp only [getMapValueByNamespace, hk]

/-- C6 on the snapshot of the scenario: the present key `tcp_listen` resolves to its value
1, the absent key `tcp_bogus` to the key-not-found error. -/
theorem getMapValueByNamespace_single_witness :
    (mapLookup (snapshot scenario) "tcp_listen" = some (Value.int 1) ∧
      getMapValueByNamespace (snapshot scenario) ["tcp_listen"] = (Value.int 1, none)) ∧
    (mapLookup (snapshot scenario) "tcp_bogus" = none ∧
      getMapValueByNamespace (snapshot scenario) ["tcp_bogus"]
        = (Value.nil, some "Key does not exist in map \x7bkey tcp_bogus\x7d")) :=
  ⟨⟨rfl, (getMapValueByNamespace_single (snapshot scenario) "tcp_listen").1 _ rfl⟩,
   ⟨rfl, (getMapValueByNamespace_single (snapshot scenario) "tcp_bogus").2 rfl⟩⟩

/-- C7: for every mapping, empty, flat or nested, the empty path fails with the error
"Namespace length equal to zero" and yields no value. -/
theorem getMapValueByNamespace_empty_path (m : Fields) :
    getMapValueByNamespace m [] = (Value.nil, some "Namespace length equal to zero") := by
  cases m <;> rfl

/-- C8 (the code at the failing input): when the first of two or more segments is not a
key of the mapping, the result is the nil value with a nil error, not a key-not-found
error; so on the empty-list snapshot the path `[tcp_bogus, x]`, whose first segment is
absent, resolves without error. -/
theorem getMapValueByNamespace_missing_intermediate :
    (∀ (m : Fields) (k next : String) (rest : List String), mapLookup m k = none →
      getMapValueByNamespace m (k :: next :: rest) = (Value.nil, none)) ∧
    mapLookup (snapshot []) "tcp_bogus" = none ∧
    getMapValueByNamespace (snapshot []) ["tcp_bogus", "x"] = (Value.nil, none) := by
  refine ⟨?_, rfl, rfl⟩
  intro m k next rest hk
  simp only [getMapValueByNamespace, hk]


/-! ## CollectMetrics and GetMetricTypes -/

theorem collectLoop_all_resolved (fields : Fields) (reqs acc : List MetricType)
    (h3 : ∀ mt ∈ reqs, 3 ≤ mt.Namespace_.length)
    (hok : ∀ mt ∈ reqs, (getMapValueByNamespace fields (mt.Namespace_.drop 3)).2 = none) :
    collectLoop fields reqs acc = some (acc ++ reqs.map (collected fields), none) := by
  induction reqs generalizing acc with
  | nil => simp [collectLoop]
  | cons mt rest ih =>
    have hlen := h3 mt (List.mem_cons_self _ _)
    have hres := hok mt (List.mem_cons_self _ _)
    have ih1 := ih (acc ++ [collected fields mt])
      (fun x hx => h3 x (List.mem_cons_of_mem _ hx))
      (fun x hx => hok x (List.mem_cons_of_mem _ hx))
    rw [collectLoop]
    simp only [sliceFrom3, hlen, if_true]
    rcases hg : getMapValueByNamespace fields (mt.Namespace_.drop 3) with ⟨val, err⟩
    rw [hg] at hres
    simp only at hres
    subst hres
    simp only
    have hc : collected fields mt = { Namespace_ := mt.Namespace_, Data_ := val } := by
      simp [collected, hg]
    rw [← hc, ih1]
    simp

theorem collectLoop_some_unresolved (fields : Fields) (reqs acc : List MetricType)
    (h3 : ∀ mt ∈ reqs, 3 ≤ mt.Namespace_.length)
    (hbad : ∃ mt ∈ reqs, (getMapValueByNamespace fields (mt.Namespace_.drop 3)).2 ≠ none) :
    ∃ mt ∈ reqs, ∃ err,
      (getMapValueByNamespace fields (mt.Namespace_.drop 3)).2 = some err ∧
      collectLoop fields reqs acc = some ([], some ("Error collecting metrics: " ++ err)) := by
  induction reqs generalizing acc with
  | nil =>
    obtain ⟨mt, hmt, _⟩ := hbad
    cases hmt
  | cons mt rest ih =>
    have hlen := h3 mt (List.mem_cons_self _ _)
    rcases hg : getMapValueByNamespace fields (mt.Namespace_.drop 3) with ⟨val, err⟩
    cases err with
    | some e =>
      refine ⟨mt, List.mem_cons_self _ _, e, by rw [hg], ?_⟩
      rw [collectLoop]
      simp only [sliceFrom3, hlen, if_true, hg]
    | none =>
      have hrest : ∃ x ∈ rest, (getMapValueByNamespace fields (x.Namespace_.drop 3)).2 ≠ none := by
        obtain ⟨x, hx, hxe⟩ := hbad
        rcases List.mem_cons.mp hx with h | h
        · subst h
          rw [hg] at hxe
          exact absurd rfl hxe
        · exact ⟨x, h, hxe⟩
      obtain ⟨x, hx, e, hxe, hrun⟩ := ih (acc ++ [{ Namespace_ := mt.Namespace_, Data_ := val }])
        (fun x hx => h3 x (List.mem_cons_of_mem _ hx)) hrest
      refine ⟨x, List.mem_cons_of_mem _ hx, e, hxe, ?_⟩
      rw [collectLoop]
      simp only [sliceFrom3, hlen, if_true, hg]
      exact hrun

/-- C9 (counterexample): a requested namespace of one segment has no three leading
segments to strip; there `CollectMetrics` returns neither an error nor metrics, the slice
expression `ns[3:]` panics. -/
theorem CollectMetrics_short_namespace_panics :
    CollectMetrics (.ok []) [{ Namespace_ := ["staples"], Data_ := Value.nil }] = none :=
  rfl

/-- C9 (amended): for every request list whose namespaces all have at least 3 segments,
`CollectMetrics` is all-or-nothing over the one snapshot of `getStats`: if enumeration
fails, or if the resolution of any one requested path (the namespace without its first 3
segments) fails, it returns an error and no metrics; otherwise it returns exactly one
metric per requested namespace, in request order, each with its namespace unchanged and
the value resolved for it in that snapshot. -/
theorem CollectMetrics_all_or_nothing (enumerated : Except String (List ConnectionStat))
    (reqs : List MetricType) (h3 : ∀ mt ∈ reqs, 3 ≤ mt.Namespace_.length) :
    (∀ e, getStats enumerated = .error e →
      CollectMetrics enumerated reqs = some ([], some ("Error collecting metrics: " ++ e))) ∧
    (∀ fields, getStats enumerated = .ok fields →
      ((∃ mt ∈ reqs, (getMapValueByNamespace fields (mt.Namespace_.drop 3)).2 ≠ none) →
        ∃ mt ∈ reqs, ∃ err,
          (getMapValueByNamespace fields (mt.Namespace_.drop 3)).2 = some err ∧
          CollectMetrics enumerated reqs
            = some ([], some ("Error collecting metrics: " ++ err))) ∧
      ((∀ mt ∈ reqs, (getMapValueByNamespace fields (mt.Namespace_.drop 3)).2 = none) →
        CollectMetrics enumerated reqs
          = some (reqs.map (fun mt =>
              { Namespace_ := mt.Namespace_,
                Data_ := (getMapValueByNamespace fields (mt.Namespace_.drop 3)).1 }), none))) := by
  constructor
  · intro e he
    simp only [CollectMetrics, he]
  · intro fields hf
    constructor
    · intro hbad
      obtain ⟨mt, hmt, err, herr, hrun⟩ := collectLoop_some_unresolved fields reqs [] h3 hbad
      refine ⟨mt, hmt, err, herr, ?_⟩
      simp only [CollectMetrics, hf]
      exact hrun
    · intro hok
      simp only [CollectMetrics, hf]
      rw [collectLoop_all_resolved fields reqs [] h3 hok]
      rfl

/-- C9 (amended) on the scenario: the two requests `tcp_listen` and `udp_socket` are
answered in order with the values 1 and 2. -/
theorem CollectMetrics_all_or_nothing_witness :
    (∀ mt ∈ listenAndUdp, 3 ≤ mt.Namespace_.length) ∧
    CollectMetrics (.ok scenario) listenAndUdp
      = some ([ { Namespace_ := ["staples", "procfs", "netstat", "tcp_listen"],
                  Data_ := Value.int 1 },
                { Namespace_ := ["staples", "procfs", "netstat", "udp_socket"],
                  Data_ := Value.int 2 } ], none) := by
  have h3 : ∀ mt ∈ listenAndUdp, 3 ≤ mt.Namespace_.length := by
    intro mt hmt
    simp only [listenAndUdp, List.mem_cons, List.mem_singleton, List.not_mem_nil,
      or_false] at hmt
    rcases hmt with h | h <;> subst h <;> decide
  refine ⟨h3, ?_⟩
  have h := ((CollectMetrics_all_or_nothing (.ok scenario) listenAndUdp h3).2
    (snapshot scenario) rfl).2
  rw [h]
  · rfl
  · intro mt hmt
    simp only [listenAndUdp, List.mem_cons, List.mem_singleton, List.not_mem_nil,
      or_false] at hmt
    rcases hmt with h | h <;> subst h <;> rfl

/-- C10 (counterexample): when enumeration fails with "permission denied", the error
returned by `GetMetricTypes` and by `CollectMetrics` is not that error. -/
theorem enumeration_error_not_verbatim :
    (GetMetricTypes (.error "permission denied") id).2 ≠ some "permission denied" ∧
    (CollectMetrics (.error "permission denied") listenAndUdp).map Prod.snd
      ≠ some (some "permission denied") := by
  constructor <;> decide

/-- C10 (amended): when enumeration fails with an error `e`, both `GetMetricTypes` and
`CollectMetrics` return no metrics and an error whose message is "Error collecting
metrics: " followed by the message of `e`; that message is never the message of `e`
itself. -/
theorem enumeration_error_wrapped (e : String) (rangeOrder : Fields → Fields)
    (reqs : List MetricType) :
    GetMetricTypes (.error e) rangeOrder = ([], some ("Error collecting metrics: " ++ e)) ∧
    CollectMetrics (.error e) reqs = some ([], some ("Error collecting metrics: " ++ e)) ∧
    "Error collecting metrics: " ++ e ≠ e := by
  refine ⟨rfl, rfl, ?_⟩
  intro h
  have hlen := congrArg String.length h
  rw [String.length_append] at hlen
  have h26 : "Error collecting metrics: ".length = 26 := by decide
  omega


/-! ## Listing: GetMetricTypes -/

/-- C11: for every connection list on which enumeration succeeds, and whatever order the
range over the snapshot visits its entries in (each entry once), `GetMetricTypes` returns
no error and exactly 13 metrics, one per name of the fixed catalog and each name once,
every metric having the namespace `staples/procfs/netstat/name` and nil data. -/
theorem GetMetricTypes_lists_catalog (conns : List ConnectionStat)
    (rangeOrder : Fields → Fields) (hrange : ∀ m, (rangeOrder m).Perm m) :
    ∃ names : List String, names.Perm catalog ∧ names.Nodup ∧ names.length = 13 ∧
      GetMetricTypes (.ok conns) rangeOrder
        = (names.map (fun name =>
            { Namespace_ := ["staples", "procfs", "netstat", name], Data_ := Value.nil }),
           none) ∧
      (GetMetricTypes (.ok conns) rangeOrder).1.length = 13 := by
  have hperm : ((rangeOrder (snapshot conns)).map Prod.fst).Perm catalog := by
    have h := (hrange (snapshot conns)).map Prod.fst
    rw [snapshot_keys] at h
    exact h
  have hrun : GetMetricTypes (.ok conns) rangeOrder
      = (((rangeOrder (snapshot conns)).map Prod.fst).map (fun name =>
          { Namespace_ := ["staples", "procfs", "netstat", name], Data_ := Value.nil }),
         none) := by
    simp only [GetMetricTypes, getStats, List.map_map]
    rfl
  refine ⟨(rangeOrder (snapshot conns)).map Prod.fst, hperm, ?_, ?_, hrun, ?_⟩
  · exact (hperm.nodup_iff).mpr (by decide)
  · rw [hperm.length_eq]
    rfl
  · rw [hrun]
    simp only [List.length_map]
    rw [(hrange (snapshot conns)).length_eq]
    rfl

/-- C11 with the range visiting the snapshot of the scenario in reverse order. -/
theorem GetMetricTypes_lists_catalog_witness :
    (∀ m : Fields, (List.reverse m).Perm m) ∧
    ∃ names : List String, names.Perm catalog ∧ names.Nodup ∧ names.length = 13 ∧
      GetMetricTypes (.ok scenario) List.reverse
        = (names.map (fun name =>
            { Namespace_ := ["staples", "procfs", "netstat", name], Data_ := Value.nil }),
           none) ∧
      (GetMetricTypes (.ok scenario) List.reverse).1.length = 13 :=
  ⟨fun m => List.reverse_perm m,
    GetMetricTypes_lists_catalog scenario List.reverse (fun m => List.reverse_perm m)⟩


/-! ## Descent into nested mappings -/

theorem getMapValueByNamespace_descend (m inner : Fields) (k next : String)
    (rest : List String) (hk : mapLookup m k = some (Value.map inner)) :
    getMapValueByNamespace m (k :: next :: rest)
      = getMapValueByNamespace inner (next :: rest) := by
  rw [getMapValueByNamespace]
  simp only [hk]

theorem getMapValueByNamespace_of_namesLeaf (path : List String) :
    ∀ (m : Fields) (leaf : Value), namesLeaf m path leaf →
      getMapValueByNamespace m path = (leaf, none) := by
  induction path with
  | nil =>
    intro m leaf h
    exact absurd h (by simp [namesLeaf])
  | cons k rest ih =>
    intro m leaf h
    cases rest with
    | nil =>
      simp only [namesLeaf] at h
      simp only [getMapValueByNamespace, h]
    | cons next rest =>
      simp only [namesLeaf] at h
      obtain ⟨inner, hk, hinner⟩ := h
      rw [getMapValueByNamespace_descend m inner k next rest hk]
      exact ih inner leaf hinner

/-- C12: for every mapping `m`, key `k` and non-empty remaining path `rest`, if `m[k]` is
itself a nested mapping, then resolving `k :: rest` in `m` returns exactly the result, value
and error, of resolving `rest` in `m[k]`; hence a path that names a present leaf through
nested mappings of any depth resolves to that leaf's value with no error. -/
theorem getMapValueByNamespace_nested :
    (∀ (m inner : Fields) (k : String) (rest : List String), rest ≠ [] →
      mapLookup m k = some (Value.map inner) →
      getMapValueByNamespace m (k :: rest) = getMapValueByNamespace inner rest) ∧
    (∀ (m : Fields) (path : List String) (leaf : Value), namesLeaf m path leaf →
      getMapValueByNamespace m path = (leaf, none)) := by
  constructor
  · intro m inner k rest hrest hk
    cases rest with
    | nil => exact absurd rfl hrest
    | cons next rest => exact getMapValueByNamespace_descend m inner k next rest hk
  · intro m path leaf h
    exact getMapValueByNamespace_of_namesLeaf path m leaf h

/-- C12 on a mapping nested three deep: resolving `net.tcp.listen` is resolving
`tcp.listen` inside `net`, and yields the leaf 4. -/
theorem getMapValueByNamespace_nested_witness :
    (["tcp", "listen"] ≠ [] ∧
      mapLookup nestedFields "net"
        = some (Value.map [ ("tcp", Value.map [("listen", Value.int 4)]),
                            ("udp", Value.int 7) ]) ∧
      getMapValueByNamespace nestedFields ("net" :: ["tcp", "listen"])
        = getMapValueByNamespace
            [ ("tcp", Value.map [("listen", Value.int 4)]), ("udp", Value.int 7) ]
            ["tcp", "listen"]) ∧
    (namesLeaf nestedFields ["net", "tcp", "listen"] (Value.int 4) ∧
      getMapValueByNamespace nestedFields ["net", "tcp", "listen"] = (Value.int 4, none)) := by
  have hleaf : namesLeaf nestedFields ["net", "tcp", "listen"] (Value.int 4) :=
    ⟨_, rfl, _, rfl, rfl⟩
  exact ⟨⟨by decide, rfl, getMapValueByNamespace_nested.1 nestedFields _ "net"
      ["tcp", "listen"] (by decide) rfl⟩,
    ⟨hleaf, getMapValueByNamespace_nested.2 nestedFields _ _ hleaf⟩⟩

theorem mem_of_mapLookup {β : Type} (m : List (String × β)) (k : String) (v : β)
    (h : mapLookup m k = some v) : (k, v) ∈ m := by
  induction m with
  | nil => simp [mapLookup] at h
  | cons hd tl ih =>
    obtain ⟨a, b⟩ := hd
    simp only [mapLookup] at h
    split at h
    · rename_i hak
      subst hak
      rw [Option.some.inj h]
      exact List.mem_cons_self _ _
    · exact List.mem_cons_of_mem _ (ih h)

theorem snapshot_value_is_int (conns : List ConnectionStat) (k : String) (v : Value)
    (h : mapLookup (snapshot conns) k = some v) : ∃ n : Int, v = Value.int n := by
  have hmem := mem_of_mapLookup (snapshot conns) k v h
  simp only [snapshot, buildFields, List.mem_cons, List.mem_singleton, List.not_mem_nil,
    or_false, Prod.mk.injEq] at hmem
  rcases hmem with h | h | h | h | h | h | h | h | h | h | h | h | h <;> exact ⟨_, h.2⟩

/-- C13: for every mapping `m`, key `k` and non-empty remaining path `rest`, if `m[k]` is
present but is not a mapping, resolving `k :: rest` returns the nil value with no error;
so on the flat snapshot of `getStats` a path of two or more segments never produces an
error. -/
theorem getMapValueByNamespace_through_non_mapping :
    (∀ (m : Fields) (k : String) (v : Value) (rest : List String), rest ≠ [] →
      mapLookup m k = some v → (∀ inner, v ≠ Value.map inner) →
      getMapValueByNamespace m (k :: rest) = (Value.nil, none)) ∧
    (∀ (conns : List ConnectionStat) (path : List String), 2 ≤ path.length →
      ∃ fields, getStats (.ok conns) = .ok fields ∧
        (getMapValueByNamespace fields path).2 = none) := by
  constructor
  · intro m k v rest hrest hk hv
    cases rest with
    | nil => exact absurd rfl hrest
    | cons next rest =>
      rw [getMapValueByNamespace]
      cases v with
      | map inner => exact absurd rfl (hv inner)
      | nil => simp only [hk]
      | int n => simp only [hk]
      | str s => simp only [hk]
  · intro conns path hlen
    refine ⟨snapshot conns, rfl, ?_⟩
    match path, hlen with
    | k :: next :: rest, _ =>
      rw [getMapValueByNamespace]
      cases hk : mapLookup (snapshot conns) k with
      | none => rfl
      | some v =>
        obtain ⟨n, hn⟩ := snapshot_value_is_int conns k v hk
        subst hn
        rfl


/-- C13 on the snapshot of the scenario: `tcp_listen` holds the integer 1, so the path
`tcp_listen.x` resolves to the nil value with no error. -/
theorem getMapValueByNamespace_through_non_mapping_witness :
    (["x"] ≠ [] ∧ mapLookup (snapshot scenario) "tcp_listen" = some (Value.int 1) ∧
      (∀ inner, Value.int 1 ≠ Value.map inner) ∧
      getMapValueByNamespace (snapshot scenario) ("tcp_listen" :: ["x"]) = (Value.nil, none)) ∧
    (2 ≤ ["tcp_listen", "x"].length ∧
      ∃ fields, getStats (.ok scenario) = .ok fields ∧
        (getMapValueByNamespace fields ["tcp_listen", "x"]).2 = none) :=
  ⟨⟨by decide, rfl, fun _ h => Value.noConfusion h,
      getMapValueByNamespace_through_non_mapping.1 (snapshot scenario) "tcp_listen"
        (Value.int 1) ["x"] (by decide) rfl (fun _ h => Value.noConfusion h)⟩,
    ⟨by decide,
      getMapValueByNamespace_through_non_mapping.2 scenario ["tcp_listen", "x"] (by decide)⟩⟩

/-! ## Listing and collection together -/

theorem mapLookup_of_mem_keys {β : Type} (m : List (String × β)) (k : String)
    (hk : k ∈ m.map Prod.fst) : ∃ v, mapLookup m k = some v := by
  induction m with
  | nil => simp at hk
  | cons hd tl ih =>
    obtain ⟨a, b⟩ := hd
    by_cases hak : a = k
    · exact ⟨b, by simp [mapLookup, hak]⟩
    · have hk1 : k ∈ tl.map Prod.fst := by
        simp only [List.map_cons, List.mem_cons] at hk
        rcases hk with h | h
        · exact absurd h.symm hak
        · exact h
      obtain ⟨v, hv⟩ := ih hk1
      exact ⟨v, by simp [mapLookup, hak, hv]⟩

theorem snapshot_lookup_intAt (conns : List ConnectionStat) (k : String) (hk : k ∈ catalog) :
    mapLookup (snapshot conns) k = some (Value.int (intAt (snapshot conns) k)) := by
  obtain ⟨n, hn⟩ := snapshot_values conns k hk
  unfold intAt
  rw [hn]

/-- C14: listing and collection agree.  For every connection list on which enumeration
succeeds, and whatever order the range visits the snapshot in, `CollectMetrics` applied
to the metrics returned by `GetMetricTypes` over the same connection list returns no
error, and returns for each listed namespace `staples/procfs/netstat/k`, in the listed
order, a metric with that namespace whose value is the count the snapshot stores
under `k`. -/
theorem CollectMetrics_of_GetMetricTypes (conns : List ConnectionStat)
    (rangeOrder : Fields → Fields) (hrange : ∀ m, (rangeOrder m).Perm m) :
    ∃ (fields : Fields) (names : List String),
      getStats (.ok conns) = .ok fields ∧ names.Perm catalog ∧
      (GetMetricTypes (.ok conns) rangeOrder).1
        = names.map (fun k =>
            { Namespace_ := ["staples", "procfs", "netstat", k], Data_ := Value.nil }) ∧
      (∀ k ∈ names, mapLookup fields k = some (Value.int (intAt fields k))) ∧
      CollectMetrics (.ok conns) (GetMetricTypes (.ok conns) rangeOrder).1
        = some (names.map (fun k =>
            { Namespace_ := ["staples", "procfs", "netstat", k],
              Data_ := Value.int (intAt fields k) }), none) := by
  have hperm : ((rangeOrder (snapshot conns)).map Prod.fst).Perm catalog := by
    have h := (hrange (snapshot conns)).map Prod.fst
    rw [snapshot_keys] at h
    exact h
  have hlist : (GetMetricTypes (.ok conns) rangeOrder).1
      = ((rangeOrder (snapshot conns)).map Prod.fst).map listed := by
    simp only [GetMetricTypes, getStats, List.map_map]
    rfl
  have hval : ∀ k ∈ (rangeOrder (snapshot conns)).map Prod.fst,
      mapLookup (snapshot conns) k = some (Value.int (intAt (snapshot conns) k)) :=
    fun k hk => snapshot_lookup_intAt conns k (hperm.mem_iff.mp hk)
  refine ⟨snapshot conns, (rangeOrder (snapshot conns)).map Prod.fst, rfl, hperm, hlist,
    hval, ?_⟩
  rw [hlist]
  generalize (rangeOrder (snapshot conns)).map Prod.fst = names at hval
  have hmap : (names.map listed).map (collected (snapshot conns))
      = names.map (fun k =>
          { Namespace_ := ["staples", "procfs", "netstat", k],
            Data_ := Value.int (intAt (snapshot conns) k) }) := by
    rw [List.map_map]
    apply List.map_congr_left
    intro k hk
    simp only [Function.comp, collected, listed, List.drop_succ_cons, List.drop_zero,
      getMapValueByNamespace, hval k hk]
  show collectLoop (snapshot conns) _ [] = _
  rw [collectLoop_all_resolved, List.nil_append, hmap]
  · intro mt hmt
    obtain ⟨k, _, hk⟩ := List.mem_map.mp hmt
    subst hk
    exact Nat.le_succ 3
  · intro mt hmt
    obtain ⟨k, hkm, hk⟩ := List.mem_map.mp hmt
    subst hk
    simp only [listed, List.drop_succ_cons, List.drop_zero, getMapValueByNamespace,
      hval k hkm]

/-- C14 on the scenario, with the range visiting the snapshot in reverse order. -/
theorem CollectMetrics_of_GetMetricTypes_witness :
    (∀ m : Fields, (List.reverse m).Perm m) ∧
    ∃ (fields : Fields) (names : List String),
      getStats (.ok scenario) = .ok fields ∧ names.Perm catalog ∧
      (GetMetricTypes (.ok scenario) List.reverse).1
        = names.map (fun k =>
            { Namespace_ := ["staples", "procfs", "netstat", k], Data_ := Value.nil }) ∧
      (∀ k ∈ names, mapLookup fields k = some (Value.int (intAt fields k))) ∧
      CollectMetrics (.ok scenario) (GetMetricTypes (.ok scenario) List.reverse).1
        = some (names.map (fun k =>
            { Namespace_ := ["staples", "procfs", "netstat", k],
              Data_ := Value.int (intAt fields k) }), none) :=
  ⟨fun m => List.reverse_perm m,
    CollectMetrics_of_GetMetricTypes scenario List.reverse (fun m => List.reverse_perm m)⟩


/-! ## Order of the enumerated connections -/

theorem snapshot_perm (conns conns1 : List ConnectionStat) (h : conns.Perm conns1) :
    snapshot conns = snapshot conns1 := by
  unfold snapshot
  apply buildFields_congr
  intro k _
  rw [countOf_countConns, countOf_countConns, h.countP_eq]

/-- C15: the aggregation in `getStats` does not depend on the order of the enumerated
connections: for every connection list and every permutation of it, `getStats` returns
the same snapshot, so the two snapshots hold the same value under each of the 13 keys. -/
theorem getStats_perm (conns conns1 : List ConnectionStat) (h : conns.Perm conns1) :
    getStats (.ok conns) = getStats (.ok conns1) ∧
    ∃ fields fields1, getStats (.ok conns) = .ok fields ∧
      getStats (.ok conns1) = .ok fields1 ∧
      ∀ k ∈ catalog, mapLookup fields k = mapLookup fields1 k := by
  have hs := snapshot_perm conns conns1 h
  refine ⟨?_, snapshot conns, snapshot conns1, rfl, rfl, ?_⟩
  · show Except.ok (snapshot conns) = Except.ok (snapshot conns1)
    rw [hs]
  · intro k _
    rw [hs]

/-- C15 on the scenario and its reversal. -/
theorem getStats_perm_witness :
    scenario.Perm scenario.reverse ∧
    getStats (.ok scenario) = getStats (.ok scenario.reverse) ∧
    ∃ fields fields1, getStats (.ok scenario) = .ok fields ∧
      getStats (.ok scenario.reverse) = .ok fields1 ∧
      ∀ k ∈ catalog, mapLookup fields k = mapLookup fields1 k :=
  ⟨(List.reverse_perm scenario).symm,
    getStats_perm scenario scenario.reverse (List.reverse_perm scenario).symm⟩

/-! ## Range of the slice in CollectMetrics -/

theorem collectLoop_append_resolved (fields : Fields) (pre rest acc : List MetricType)
    (h3 : ∀ mt ∈ pre, 3 ≤ mt.Namespace_.length)
    (hok : ∀ mt ∈ pre, (getMapValueByNamespace fields (mt.Namespace_.drop 3)).2 = none) :
    collectLoop fields (pre ++ rest) acc
      = collectLoop fields rest (acc ++ pre.map (collected fields)) := by
  induction pre generalizing acc with
  | nil => simp
  | cons mt tl ih =>
    have hlen := h3 mt (List.mem_cons_self _ _)
    have hres := hok mt (List.mem_cons_self _ _)
    have ih1 := ih (acc ++ [collected fields mt])
      (fun x hx => h3 x (List.mem_cons_of_mem _ hx))
      (fun x hx => hok x (List.mem_cons_of_mem _ hx))
    rw [List.cons_append, collectLoop]
    simp only [sliceFrom3, hlen, if_true]
    rcases hg : getMapValueByNamespace fields (mt.Namespace_.drop 3) with ⟨val, err⟩
    rw [hg] at hres
    simp only at hres
    subst hres
    simp only
    have hc : collected fields mt = { Namespace_ := mt.Namespace_, Data_ := val } := by
      simp [collected, hg]
    rw [← hc, ih1]
    simp

theorem collectLoop_bare (fields : Fields) (mt : MetricType) (post acc : List MetricType)
    (hlen : mt.Namespace_.length = 3) :
    collectLoop fields (mt :: post) acc
      = some ([], some "Error collecting metrics: Namespace length equal to zero") := by
  have hdrop : mt.Namespace_.drop 3 = [] := List.drop_eq_nil_of_le (le_of_eq hlen)
  rw [collectLoop]
  simp only [sliceFrom3, hlen, le_refl, if_true, hdrop, getMapValueByNamespace]
  rfl

theorem collectLoop_total (fields : Fields) (reqs acc : List MetricType)
    (h3 : ∀ mt ∈ reqs, 3 ≤ mt.Namespace_.length) :
    (∃ err, collectLoop fields reqs acc = some ([], some err)) ∨
    (∃ metrics, collectLoop fields reqs acc = some (metrics, none)) := by
  by_cases hbad : ∃ mt ∈ reqs, (getMapValueByNamespace fields (mt.Namespace_.drop 3)).2 ≠ none
  · obtain ⟨_, _, err, _, hrun⟩ := collectLoop_some_unresolved fields reqs acc h3 hbad
    exact Or.inl ⟨_, hrun⟩
  · have hok : ∀ mt ∈ reqs, (getMapValueByNamespace fields (mt.Namespace_.drop 3)).2 = none := by
      intro mt hmt
      by_contra hne
      exact hbad ⟨mt, hmt, hne⟩
    exact Or.inr ⟨_, collectLoop_all_resolved fields reqs acc h3 hok⟩


/-- C16 (counterexample): the request list holds a namespace of exactly 3 segments, yet
the call does not fail with the empty-path error: the request before it names an absent
key, and the call fails with that key-not-found error. -/
theorem CollectMetrics_bare_after_failure :
    bogusThenBare.map (fun mt => mt.Namespace_.length) = [4, 3] ∧
    CollectMetrics (.ok []) bogusThenBare
      = some ([], some "Error collecting metrics: Key does not exist in map \x7bkey tcp_bogus\x7d") :=
  ⟨rfl, rfl⟩

/-- C16 (amended): the slice `ns[3:]` is in range for every namespace of at least 3
segments, so for a request list whose namespaces all have at least 3 segments
`CollectMetrics` returns an error and no metrics, or metrics and no error, and never
panics.  A requested namespace of exactly 3 segments yields the empty path and makes the
whole call return an error and no metrics; that error is "Error collecting metrics:
Namespace length equal to zero" when enumeration succeeded and every request before it
resolves, the first failure being the one reported. -/
theorem CollectMetrics_slice_in_range :
    (∀ ns : List String, 3 ≤ ns.length → sliceFrom3 ns = some (ns.drop 3)) ∧
    (∀ (enumerated : Except String (List ConnectionStat)) (reqs : List MetricType),
      (∀ mt ∈ reqs, 3 ≤ mt.Namespace_.length) →
      (∃ err, CollectMetrics enumerated reqs = some ([], some err)) ∨
      (∃ metrics, CollectMetrics enumerated reqs = some (metrics, none))) ∧
    (∀ (enumerated : Except String (List ConnectionStat)) (reqs : List MetricType)
      (mt : MetricType), (∀ x ∈ reqs, 3 ≤ x.Namespace_.length) → mt ∈ reqs →
      mt.Namespace_.length = 3 →
      sliceFrom3 mt.Namespace_ = some [] ∧
      ∃ err, CollectMetrics enumerated reqs = some ([], some err)) ∧
    (∀ (conns : List ConnectionStat) (pre post : List MetricType) (mt : MetricType),
      (∀ x ∈ pre, 3 ≤ x.Namespace_.length) →
      (∀ x ∈ pre, (getMapValueByNamespace (snapshot conns) (x.Namespace_.drop 3)).2 = none) →
      mt.Namespace_.length = 3 →
      CollectMetrics (.ok conns) (pre ++ mt :: post)
        = some ([], some "Error collecting metrics: Namespace length equal to zero")) := by
  refine ⟨?_, ?_, ?_, ?_⟩
  · intro ns hns
    simp only [sliceFrom3, hns, if_true]
  · intro enumerated reqs h3
    cases enumerated with
    | error e => exact Or.inl ⟨_, rfl⟩
    | ok conns => exact collectLoop_total (snapshot conns) reqs [] h3
  · intro enumerated reqs mt h3 hmt hlen
    have hdrop : mt.Namespace_.drop 3 = [] := List.drop_eq_nil_of_le (le_of_eq hlen)
    refine ⟨by simp only [sliceFrom3, hlen, le_refl, if_true, hdrop], ?_⟩
    cases enumerated with
    | error e => exact ⟨_, rfl⟩
    | ok conns =>
      have hbad : ∃ x ∈ reqs,
          (getMapValueByNamespace (snapshot conns) (x.Namespace_.drop 3)).2 ≠ none := by
        refine ⟨mt, hmt, ?_⟩
        rw [hdrop]
        simp [getMapValueByNamespace]
      obtain ⟨_, _, err, _, hrun⟩ :=
        collectLoop_some_unresolved (snapshot conns) reqs [] h3 hbad
      exact ⟨_, hrun⟩
  · intro conns pre post mt h3 hok hlen
    show collectLoop (snapshot conns) (pre ++ mt :: post) [] = _
    rw [collectLoop_append_resolved (snapshot conns) pre (mt :: post) [] h3 hok]
    exact collectLoop_bare (snapshot conns) mt post _ hlen

/-- C16 (amended) on the scenario: of the three requests `tcp_listen`, the bare routing
segments and `udp_socket`, the first resolves and the second has the empty path, so the
call fails with the empty-path error. -/
theorem CollectMetrics_slice_in_range_witness :
    (∀ x ∈ [listed "tcp_listen"], 3 ≤ x.Namespace_.length) ∧
    (∀ x ∈ [listed "tcp_listen"],
      (getMapValueByNamespace (snapshot scenario) (x.Namespace_.drop 3)).2 = none) ∧
    (MetricType.mk ["staples", "procfs", "netstat"] Value.nil).Namespace_.length = 3 ∧
    CollectMetrics (.ok scenario)
        ([listed "tcp_listen"] ++ MetricType.mk ["staples", "procfs", "netstat"] Value.nil
          :: [listed "udp_socket"])
      = some ([], some "Error collecting metrics: Namespace length equal to zero") := by
  have h3 : ∀ x ∈ [listed "tcp_listen"], 3 ≤ x.Namespace_.length := by
    intro x hx
    rw [List.mem_singleton.mp hx]
    decide
  have hok : ∀ x ∈ [listed "tcp_listen"],
      (getMapValueByNamespace (snapshot scenario) (x.Namespace_.drop 3)).2 = none := by
    intro x hx
    rw [List.mem_singleton.mp hx]
    rfl
  exact ⟨h3, hok, rfl,
    CollectMetrics_slice_in_range.2.2.2 scenario [listed "tcp_listen"] [listed "udp_socket"]
      (MetricType.mk ["staples", "procfs", "netstat"] Value.nil) h3 hok rfl⟩

end Netstat
